import Mathlib

/-!
Shallow embedding of the bill-recorder application core (a client-side
personal bill-tracking app written in TypeScript/React).

Embedded here, faithfully from the source:
* the merchant-name heuristic classifier and the AI-extraction validation
  pipeline of src/services/geminiService.ts (function analyzeBill);
* the category enumeration of src/unnamed/part_009 (types.ts) and the
  CATEGORIES list of src/constants.ts;
* the transaction store and its mutation handlers from src/unnamed/part_007
  (the App component): handleAddTransactions, handleSaveTransaction,
  handleBulkChangeCategory, handleDeleteTransaction,
  handleBulkDeleteTransactions, handleImportTransactions,
  handleRestoreTransaction, handleClearAll;
* the amount-keypad expression evaluator evalExpression of
  src/unnamed/part_001 (TransactionFormModal.tsx);
* the SwipeToDelete pointer-up handler of src/components/TrashView.tsx.

Modelling conventions:
* JS numbers are modelled as rationals (ℚ); a possibly-non-numeric or NaN
  field is `Option ℚ` with `none` standing for the non-finite case.
  `isFinite` is then `Option.isSome`, and JS number-to-string (used only
  inside dedup key strings, where only injectivity and determinism matter)
  is modelled by the injective normalized `num/den` rendering `ratStr`.
* JS strings are Lean `String`s; `String(x || '').trim()`, `.slice(0, 16)`
  and `.toLowerCase()` are modelled by list-of-char recursions `jsTrim`,
  `jsSlice16` and `jsToLower`.
* Each regular-expression family of the classifier is modelled as an
  unanchored substring match against the union of its literal alternatives
  (the input is lowercased first, exactly as in the source); whitespace-
  flexible alternatives such as `sun\s*drug` are listed at their zero-space
  and one-space instantiations.
* `new Date(s).getTime()` on the app's fixed `YYYY-MM-DDTHH:mm` date
  format is strictly monotone in the year/month/day/hour/minute digits, so
  the timestamp is modelled by the packed digit value `dateVal`.
* `Array.prototype.sort` with the comparator
  `(a, b) => new Date(b.date).getTime() - new Date(a.date).getTime()`
  is modelled by insertion sort with the relation `byDateDesc`.
* Fresh identifiers (`Date.now() + Math.random()...`) are modelled by an
  explicit generator `mkId : Nat → String` passed to each operation, and
  the operation's start timestamp by an explicit `nowISO : String`.
-/

namespace BillRecorder

/-! ### String primitives -/

/-- Whether `needle` occurs at the head of `hay`. -/
def startsWithChars : List Char → List Char → Bool
  | [], _ => true
  | _ :: _, [] => false
  | a :: as, b :: bs => a == b && startsWithChars as bs

/-- Whether `needle` occurs as a contiguous substring of `hay`
(unanchored, like an unanchored JS regex literal). -/
def hasSub (needle : List Char) : List Char → Bool
  | [] => needle.isEmpty
  | c :: rest => startsWithChars needle (c :: rest) || hasSub needle rest

/-- Whether the string contains any of the literal alternatives. -/
def containsAnyOf (lits : List String) (s : String) : Bool :=
  lits.any fun l => hasSub l.data s.data

/-- Model of `String.prototype.toLowerCase` (ASCII case folding; CJK
characters are unaffected). -/
def jsToLower (s : String) : String := ⟨s.data.map Char.toLower⟩

/-- JS whitespace test for `trim` (the characters relevant to this app). -/
def isWsp (c : Char) : Bool := c == ' ' || c == '\t' || c == '\n' || c == '\r'

/-- Drop leading whitespace. -/
def dropLeadWsp : List Char → List Char
  | [] => []
  | c :: cs => if isWsp c then dropLeadWsp cs else c :: cs

/-- Model of `String.prototype.trim`. -/
def jsTrim (s : String) : String :=
  ⟨dropLeadWsp ((dropLeadWsp s.data.reverse).reverse)⟩

/-- Model of `String.prototype.slice(0, 16)`, the import path's date
normalization to `YYYY-MM-DDTHH:mm`. -/
def jsSlice16 (s : String) : String := ⟨s.data.take 16⟩

/-! ### Categories (src/unnamed/part_009 `Category`, src/constants.ts `CATEGORIES`)

The TypeScript `Category` enum has nine members whose runtime values are
the Chinese strings below.  At runtime a transaction's category field is an
arbitrary string (the import path casts with `as any`), so the embedded
record types carry `String` and the enum is a separate inductive with its
string value `catStr`. -/

inductive Category where
  | Food | Transport | Shopping | Entertainment | Home
  | Medical | Education | Transfer | Other
  deriving DecidableEq

/-- Runtime string value of each `Category` enum member. -/
def catStr : Category → String
  | .Food => "餐饮"
  | .Transport => "交通"
  | .Shopping => "购物"
  | .Entertainment => "娱乐"
  | .Home => "居家"
  | .Medical => "医疗"
  | .Education => "教育"
  | .Transfer => "转账"
  | .Other => "其他"

/-- The `CATEGORIES` list of src/constants.ts.  It enumerates eight of the
nine `Category` members: `Category.Education` is absent from it. -/
def CATEGORIES : List String :=
  [catStr .Food, catStr .Transport, catStr .Shopping, catStr .Entertainment,
   catStr .Home, catStr .Medical, catStr .Transfer, catStr .Other]

/-! ### Merchant-name heuristic classifier (src/services/geminiService.ts) -/

/-- Literal alternatives of the convenience-store regex family. -/
def convenienceLits : List String :=
  ["便利店", "便利商店", "便利超市", "便利門店", "便利门店",
   "711", "7-11", "7 11", "seven-eleven", "seveneleven", "seven eleven",
   "7eleven", "7 eleven",
   "familymart", "family mart", "全家",
   "lawson", "罗森", "羅森",
   "ministop", "mini stop", "ミニストップ",
   "ok便利", "c-store", "cstore", "喜士多",
   "美宜佳", "天福便利", "today便利", "易捷", "usmile",
   "コンビニ", "セブン", "ファミマ", "ファミリーマート", "ローソン",
   "デイリーヤマザキ", "seicomart", "セイコーマート", "ポプラ",
   "new days", "newdays"]

/-- Literal alternatives of the supermarket / grocery regex family. -/
def supermarketLits : List String :=
  ["超市", "生鲜", "生鮮", "食品館", "食品馆", "スーパー", "業務スーパー",
   "マート", "マーケット", "market",
   "家乐福", "家樂福", "carrefour",
   "沃尔玛", "沃爾瑪", "walmart",
   "大润发", "大潤發", "rt-mart", "rtmart", "rt mart",
   "物美", "永辉", "永輝",
   "华润万家", "華潤萬家", "vanguard",
   "世纪联华", "世紀聯華", "联华", "聯華", "lianhua",
   "欧尚", "歐尚", "auchan",
   "麦德龙", "麥德龍", "metro",
   "山姆", "sams club", "sam club",
   "盒马", "盒馬", "hema", "freshippo",
   "成城石井", "ole",
   "永旺", "aeon", "イオン",
   "西友", "seiyu",
   "イトーヨーカドー", "伊藤洋华堂", "伊藤洋華堂", "ito-yokado", "itoyokado",
   "ライフ", "life super",
   "サミット", "summit store",
   "マルエツ", "maruetsu",
   "コープ", "生協", "coop",
   "オーケー", "ok store",
   "ビッグエー", "big-a", "big a",
   "まいばすけっと", "mybasket"]

/-- Literal alternatives of the shopping-center / mall regex family. -/
def shoppingCenterLits : List String :=
  ["购物中心", "購物中心", "商场", "商場", "广场", "廣場", "mall", "plaza",
   "アウトレット", "ショッピング", "モール",
   "万达", "wanda", "万象城", "the mixc", "mixc", "大悦城",
   "龙湖天街", "天街", "恒隆", "hanglung", "太古", "swire", "taikoo",
   "来福士", "來福士", "raffles", "凯德", "capita mall", "capitamall",
   "ifs", "国金", "國金", "吾悦", "新城控股", "宝龙", "寶龍", "powerlong",
   "イオンモール", "aeon mall", "aeonmall",
   "parco", "パルコ",
   "ヨドバシ", "yodobashi", "bic camera", "biccamera", "ビックカメラ",
   "ドン・キホーテ", "ドンキホーテ", "don quijote", "donquijote", "donki",
   "ちいかわ", "chiikawa"]

/-- Literal alternatives of the department-store regex family. -/
def departmentLits : List String :=
  ["百货", "百貨", "百貨店", "デパート", "デパートメント",
   "島屋", "takashimaya", "三越", "mitsukoshi", "伊勢丹", "isetan",
   "そごう", "sogo", "西武", "seibu", "阪急", "hankyu", "阪神", "hanshin",
   "大丸", "daimaru", "松坂屋", "matsuzakaya",
   "0101", "丸井", "marui", "银泰", "銀泰", "intime",
   "東急 department", "東急department", "東急 百貨", "東急百貨"]

/-- Literal alternatives of the pharmacy / drugstore regex family. -/
def pharmacyLits : List String :=
  ["药店", "藥店", "药房", "藥房", "医药", "醫藥", "大药房", "大藥房",
   "薬局", "ドラッグストア", "調剤", "ドラッグ",
   "マツモトキヨシ", "松本清", "matsumoto kiyoshi", "matsumotokiyoshi",
   "ウエルシア", "welcia", "スギ薬局", "sugi",
   "ツルハドラッグ", "tsuruha", "サンドラッグ", "sun drug", "sundrug",
   "ココカラファイン", "cocokara", "クリエイトsd", "create sd", "createsd",
   "カワチ薬品", "kawachi",
   "老百姓", "同仁堂", "一心堂", "大参林", "益丰", "益豐", "海王",
   "pharmacy", "drugstore", "drug store"]

/-- Shared shape of every matcher family: lowercase the raw name, fail on
the empty string, otherwise test the family's patterns. -/
def matchFamily (lits : List String) (nameRaw : String) : Bool :=
  let name := jsToLower nameRaw
  if name = "" then false else containsAnyOf lits name

def isConvenienceStore (nameRaw : String) : Bool := matchFamily convenienceLits nameRaw

def isSupermarket (nameRaw : String) : Bool := matchFamily supermarketLits nameRaw

def isShoppingCenter (nameRaw : String) : Bool := matchFamily shoppingCenterLits nameRaw

def isDepartmentStore (nameRaw : String) : Bool := matchFamily departmentLits nameRaw

def isPharmacy (nameRaw : String) : Bool := matchFamily pharmacyLits nameRaw

/-- The category-override cascade applied by `analyzeBill` before
validation: pharmacy → Medical; else convenience store / supermarket /
department store → Food; else shopping center → Shopping; else the
supplied category is kept. -/
def applyOverride (name category : String) : String :=
  if isPharmacy name then catStr .Medical
  else if isConvenienceStore name || isSupermarket name || isDepartmentStore name then
    catStr .Food
  else if isShoppingCenter name then catStr .Shopping
  else category

/-! ### Amount-keypad expression evaluator (src/unnamed/part_001 `evalExpression`) -/

/-- Characters kept by the cleaning pass `s.replace(/[^0-9+\-.]/g, '')`. -/
def isExprChar (c : Char) : Bool := c.isDigit || c == '+' || c == '-' || c == '.'

/-- Whether a character is one of the two operators. -/
def isOpChar (c : Char) : Bool := c == '+' || c == '-'

/-- Model of `clean.replace(/[+\-]{2,}/g, m => m[m.length - 1])`: every run
of two or more consecutive operators collapses to its last operator. -/
def collapseOps : List Char → List Char
  | [] => []
  | [c] => [c]
  | a :: b :: rest =>
    if isOpChar a && isOpChar b then collapseOps (b :: rest)
    else a :: collapseOps (b :: rest)

/-- Value of a list of decimal digits. -/
def digitsVal (cs : List Char) : Nat :=
  cs.foldl (fun n c => n * 10 + (c.toNat - 48)) 0

/-- Value of the digits after the decimal point. -/
def fracVal : List Char → ℚ
  | [] => 0
  | c :: cs => (((c.toNat - 48 : Nat) : ℚ) + fracVal cs) / 10

/-- Model of `parseFloat` on the accumulated segment, which by construction
matches `[0-9]*\.?[0-9]*` and is neither empty nor a lone dot. -/
def parseSeg (cs : List Char) : ℚ :=
  let ip := cs.takeWhile Char.isDigit
  match cs.dropWhile Char.isDigit with
  | '.' :: fs => (digitsVal ip : ℚ) + fracVal (fs.takeWhile Char.isDigit)
  | _ => (digitsVal ip : ℚ)

/-- Scan state of the evaluator: running total, pending number segment,
sign of the pending term. -/
structure ScanSt where
  total : ℚ
  current : List Char
  sign : ℚ

/-- The `flush` closure: add the pending segment (if any) to the total. -/
def flushSt (st : ScanSt) : ScanSt :=
  if st.current = [] ∨ st.current = ['.'] then { st with current := [] }
  else { st with total := st.total + st.sign * parseSeg st.current, current := [] }

/-- One character of the evaluation loop: an operator flushes and sets the
sign of the next term; a second dot inside one segment is skipped; any
other kept character extends the segment. -/
def scanStep (st : ScanSt) (ch : Char) : ScanSt :=
  if isOpChar ch then
    let st := flushSt st
    { st with sign := if ch == '+' then 1 else -1 }
  else if ch == '.' && st.current.contains '.' then st
  else { st with current := st.current ++ [ch] }

/-- Left-to-right signed summation of a normalized character sequence. -/
def scanChars (cs : List Char) : ℚ :=
  (flushSt (cs.foldl scanStep ⟨0, [], 1⟩)).total

/-- Embedding of `evalExpression` (src/unnamed/part_001 lines 64-95).  In
ℚ the final `Number.isFinite(total)` guard is always satisfied. -/
def evalExpression (s : String) : ℚ :=
  if s = "" then 0
  else
    let clean := s.data.filter isExprChar
    if clean = [] then 0
    else scanChars (collapseOps clean)

/-! ### Data model (src/unnamed/part_009, types.ts) -/

/-- A persisted transaction record.  `category` is a `String` because at
runtime the field may hold any string (the import path casts `as any`);
valid values are the `catStr` images. -/
structure Transaction where
  id : String
  name : String
  category : String
  amount : ℚ
  date : String
  location : Option String
  addedAt : String
  deriving DecidableEq

/-- A candidate record without an `id` (TS `NewTransaction`). -/
structure NewTx where
  name : String
  category : String
  amount : ℚ
  date : String
  location : Option String
  deriving DecidableEq

/-- A trash entry (TS `DeletedItem`). -/
structure DeletedItem where
  tx : Transaction
  deletedAt : String
  deriving DecidableEq

/-- The transaction store: the two collections held by the App component
and persisted to local storage. -/
structure AppState where
  transactions : List Transaction
  trash : List DeletedItem
  deriving DecidableEq

/-! ### Date order and the store sort -/

/-- Digit value of the character at index `i` (missing positions read as
`'0'`; the app only ever sorts dates in the fixed 16-character format). -/
def digAt (cs : List Char) (i : Nat) : Nat := (cs.getD i '0').toNat - 48

/-- Packed numeric value of a `YYYY-MM-DDTHH:mm` date string, the model of
`new Date(s).getTime()` on the app's date format (strictly monotone in the
year, month, day, hour and minute fields, in that order). -/
def dateVal (s : String) : Nat :=
  let cs := s.data
  ((((((digAt cs 0 * 10 + digAt cs 1) * 10 + digAt cs 2) * 10 + digAt cs 3)
      * 100 + (digAt cs 5 * 10 + digAt cs 6))
      * 100 + (digAt cs 8 * 10 + digAt cs 9))
      * 100 + (digAt cs 11 * 10 + digAt cs 12))
      * 100 + (digAt cs 14 * 10 + digAt cs 15)

/-- Ordering relation of the store: `a` may precede `b` when `b`'s date is
not later — the comparator `(a, b) => time(b.date) - time(a.date)`. -/
def byDateDesc (a b : Transaction) : Prop := dateVal b.date ≤ dateVal a.date

instance : DecidableRel byDateDesc := fun a b =>
  inferInstanceAs (Decidable (dateVal b.date ≤ dateVal a.date))

instance : IsTotal Transaction byDateDesc :=
  ⟨fun a b => (Nat.le_total (dateVal b.date) (dateVal a.date)).imp id id⟩

instance : IsTrans Transaction byDateDesc :=
  ⟨fun _ _ _ hab hbc => Nat.le_trans hbc hab⟩

/-- The re-sort applied after each inserting mutation. -/
def sortTx (l : List Transaction) : List Transaction := l.insertionSort byDateDesc

/-- The store ordering invariant: sorted by `date` descending. -/
def SortedTx (l : List Transaction) : Prop := l.Sorted byDateDesc

instance (l : List Transaction) : Decidable (SortedTx l) :=
  inferInstanceAs (Decidable (l.Pairwise byDateDesc))

/-! ### Dedup keys -/

/-- Injective, deterministic rendering of a JS number for key strings
(the model of `amount`'s interpolation into a template literal). -/
def ratStr (q : ℚ) : String := toString q.num ++ "/" ++ toString q.den

/-- The joined dedup key, the model of the template literal
`name + vertical bar + date + vertical bar + amount`. -/
def txKeyOf (name date : String) (amount : ℚ) : String :=
  name ++ "|" ++ date ++ "|" ++ ratStr amount

/-- Key strings of a stored collection (the `existingKeys` set). -/
def keysOf (l : List Transaction) : List String :=
  l.map fun t => txKeyOf t.name t.date t.amount

/-- Attach a fresh `id` and the operation timestamp to a candidate. -/
def mkTx (nt : NewTx) (id addedAt : String) : Transaction :=
  { id, name := nt.name, category := nt.category, amount := nt.amount,
    date := nt.date, location := nt.location, addedAt }

/-- Attach fresh ids (one generator call per position) and the operation
timestamp to each surviving candidate, in order. -/
def withIdsFrom (mkId : Nat → String) (nowISO : String) : Nat → List NewTx → List Transaction
  | _, [] => []
  | i, nt :: rest => mkTx nt (mkId i) nowISO :: withIdsFrom mkId nowISO (i + 1) rest

/-! ### Store mutations (src/unnamed/part_007, the App component) -/

/-- Candidates of a batch whose key is absent from the pre-batch store
(the dedup filter of `handleAddTransactions`). -/
def addUnique (batch : List NewTx) (s : AppState) : List NewTx :=
  batch.filter fun t =>
    !(decide (txKeyOf t.name t.date t.amount ∈ keysOf s.transactions))

/-- Embedding of `handleAddTransactions`: drop candidates whose key
already exists, then prepend the survivors (with fresh ids and `addedAt`)
and re-sort; the second component is the function's return value, the list
of records actually merged. -/
def handleAddTransactionsFull (mkId : Nat → String) (nowISO : String)
    (batch : List NewTx) (s : AppState) : AppState × List Transaction :=
  let uniqueNew := addUnique batch s
  if uniqueNew.isEmpty then (s, [])
  else
    let withIds := withIdsFrom mkId nowISO 0 uniqueNew
    ({ s with transactions := sortTx (withIds ++ s.transactions) }, withIds)

/-- Embedding of the edit branch of `handleSaveTransaction` (the argument
carries a non-empty `id`): replace the matching record in place; the
collection is NOT re-sorted on this branch. -/
def handleSaveEdit (tx : Transaction) (s : AppState) : AppState :=
  { s with transactions := s.transactions.map fun t => if t.id == tx.id then tx else t }

/-- Embedding of the create branch of `handleSaveTransaction`: prepend the
new record and re-sort. -/
def handleSaveNew (nt : NewTx) (id nowISO : String) (s : AppState) : AppState :=
  { s with transactions := sortTx (mkTx nt id nowISO :: s.transactions) }

/-- Embedding of `handleBulkChangeCategory`: rewrite the category of the
listed ids in place. -/
def handleBulkChangeCategory (ids : List String) (c : String) (s : AppState) : AppState :=
  if ids.isEmpty then s
  else { s with transactions := s.transactions.map fun t =>
          if ids.contains t.id then { t with category := c } else t }

/-- Embedding of `handleDeleteTransaction`: remove the record by id and
push it onto the trash. -/
def handleDeleteTransaction (id deletedAt : String) (s : AppState) : AppState :=
  let remaining := s.transactions.filter fun t => t.id != id
  match s.transactions.find? (fun t => t.id == id) with
  | some target => { transactions := remaining, trash := ⟨target, deletedAt⟩ :: s.trash }
  | none => { s with transactions := remaining }

/-- Embedding of `handleBulkDeleteTransactions`. -/
def handleBulkDeleteTransactions (ids : List String) (deletedAt : String)
    (s : AppState) : AppState :=
  if ids.isEmpty then s
  else
    let toDelete := s.transactions.filter fun t => ids.contains t.id
    { transactions := s.transactions.filter fun t => !(ids.contains t.id),
      trash := toDelete.map (fun tx => ⟨tx, deletedAt⟩) ++ s.trash }

/-- Embedding of `handleRestoreTransaction`: skip (keep the collection)
when some stored record has the same name, date and amount, else prepend;
re-sort either way; always drop the trash entry with the restored id. -/
def handleRestoreTransaction (tx : Transaction) (s : AppState) : AppState :=
  let collides := s.transactions.any fun t =>
    t.name == tx.name && t.date == tx.date && decide (t.amount = tx.amount)
  let list := if collides then s.transactions else tx :: s.transactions
  { transactions := sortTx list, trash := s.trash.filter fun it => it.tx.id != tx.id }

/-- Embedding of `handleClearAll` (no trash entries are created). -/
def handleClearAll (s : AppState) : AppState := { s with transactions := [] }

/-! ### JSON import (handleImportTransactions) -/

/-- A raw element of the imported JSON array after field coercion:
`name` and `date` as strings (the source's `String(it.x || '')`),
`amount` as `Number(it.amount)` with `none` for the non-finite case,
`category` untouched, `location` optional. -/
structure ImportItem where
  name : String
  date : String
  amount : Option ℚ
  category : String
  location : Option String
  deriving DecidableEq

/-- The import path's `location` coercion: an empty (falsy) string becomes
absent. -/
def normLoc : Option String → Option String
  | none => none
  | some l => if l = "" then none else some l

/-- Per-candidate normalization of the import path: trim the name, slice
the date to 16 characters, take the absolute amount; reject when the name
or date is empty or the amount is non-finite or non-positive.  The
category field is carried through unchanged and unchecked. -/
def normalizeItem (it : ImportItem) : Option NewTx :=
  let name := jsTrim it.name
  let date := jsSlice16 it.date
  match it.amount with
  | none => none
  | some q =>
    let a := |q|
    if name = "" ∨ date = "" ∨ a ≤ 0 then none
    else some { name, category := it.category, amount := a, date, location := normLoc it.location }

/-- The normalized candidates of an import batch. -/
def importNormalized (items : List ImportItem) : List NewTx :=
  items.filterMap normalizeItem

/-- Normalized candidates whose key is absent from the pre-batch store. -/
def importUnique (items : List ImportItem) (s : AppState) : List NewTx :=
  (importNormalized items).filter fun t =>
    !(decide (txKeyOf t.name t.date t.amount ∈ keysOf s.transactions))

/-- Embedding of `handleImportTransactions`: normalize, dedup against the
existing store, and — when any candidate survives — prepend the survivors
with fresh ids and re-sort.  When no candidate survives the handler just
returns: the state is left unchanged and no error is raised. -/
def handleImportTransactions (mkId : Nat → String) (nowISO : String)
    (items : List ImportItem) (s : AppState) : AppState :=
  let unique := importUnique items s
  if unique.isEmpty then s
  else
    let withIds := withIdsFrom mkId nowISO 0 unique
    { s with transactions := sortTx (withIds ++ s.transactions) }

/-! ### AI-extraction validation (src/services/geminiService.ts `analyzeBill`) -/

/-- A candidate produced by the AI collaborator, after JSON parsing:
`amount` is `some q` exactly when `typeof item.amount` is `number`;
a missing category is the empty (falsy) string. -/
structure AIItem where
  name : String
  date : String
  amount : Option ℚ
  category : String
  location : Option String
  deriving DecidableEq

/-- Per-item processing of `analyzeBill`: apply the heuristic override,
then keep the item only if name and date are non-empty, the amount is a
number, and the (possibly overridden) category is non-empty and a member
of `CATEGORIES`; the stored amount is the absolute value. -/
def validateAI (it : AIItem) : Option NewTx :=
  let category := applyOverride it.name it.category
  match it.amount with
  | none => none
  | some q =>
    if it.name != "" && it.date != "" && category != "" && CATEGORIES.contains category then
      some { name := it.name, category, amount := |q|, date := it.date, location := it.location }
    else none

/-- The batch-empty error message thrown by `analyzeBill`. -/
def noValidMsg : String := "AI 返回的数据中没有有效的交易条目。"

/-- Embedding of the validation tail of `analyzeBill`: collect the valid
items; fail with the batch-empty error when the input was non-empty and
nothing survived. -/
def analyzeBillValidate (data : List AIItem) : Except String (List NewTx) :=
  let valid := data.filterMap validateAI
  if valid.isEmpty && !data.isEmpty then .error noValidMsg
  else .ok valid

/-! ### Mutations as a single step relation (for the ordering invariant) -/

/-- The store mutations of the App component. -/
inductive Mutation where
  | addBatch (mkId : Nat → String) (nowISO : String) (batch : List NewTx)
  | saveEdit (tx : Transaction)
  | saveNew (nt : NewTx) (id nowISO : String)
  | bulkCategory (ids : List String) (c : String)
  | del (id deletedAt : String)
  | bulkDel (ids : List String) (deletedAt : String)
  | importBatch (mkId : Nat → String) (nowISO : String) (items : List ImportItem)
  | restore (tx : Transaction)
  | clearAll

/-- Apply one mutation to the store. -/
def applyMutation : Mutation → AppState → AppState
  | .addBatch mkId nowISO batch, s => (handleAddTransactionsFull mkId nowISO batch s).1
  | .saveEdit tx, s => handleSaveEdit tx s
  | .saveNew nt id nowISO, s => handleSaveNew nt id nowISO s
  | .bulkCategory ids c, s => handleBulkChangeCategory ids c s
  | .del id deletedAt, s => handleDeleteTransaction id deletedAt s
  | .bulkDel ids deletedAt, s => handleBulkDeleteTransactions ids deletedAt s
  | .importBatch mkId nowISO items, s => handleImportTransactions mkId nowISO items s
  | .restore tx, s => handleRestoreTransaction tx s
  | .clearAll, s => handleClearAll s

/-- Side condition under which an edit keeps the order intact: the saved
record's date value equals that of every record it replaces. -/
def editKeepsDate : Mutation → AppState → Prop
  | .saveEdit tx, s => ∀ t ∈ s.transactions, t.id = tx.id → dateVal t.date = dateVal tx.date
  | _, _ => True

/-! ### SwipeToDelete pointer-up handler (src/components/TrashView.tsx) -/

/-- Pointer type of a pointer event. -/
inductive PtrType where
  | touch | pen | mouse
  deriving DecidableEq

/-- The fields of a pointer event read by the handler. -/
structure PtrEvent where
  ptype : PtrType
  pid : Nat
  clientX : ℚ

/-- The gesture state kept in the component's refs and state hooks. -/
structure SwipeSt where
  startX : Option ℚ
  baseX : ℚ
  dx : ℚ
  committing : Bool
  activePointerId : Option Nat
  width : ℚ

/-- Embedding of `onPointerUp`: ignore mouse pointers and non-tracked
pointer ids; otherwise clear the tracking refs and either commit (revealed
distance at least half the width: slide fully off, mark committing, and
schedule the deletion callback — the `Bool` result) or snap back to 0. -/
def onPointerUp (e : PtrEvent) (st : SwipeSt) : SwipeSt × Bool :=
  if e.ptype != PtrType.touch && e.ptype != PtrType.pen then (st, false)
  else if st.activePointerId != some e.pid then (st, false)
  else
    match st.startX with
    | none => ({ st with startX := none, activePointerId := none }, false)
    | some start =>
      let delta := e.clientX - start
      let revealed := |st.baseX + delta|
      let threshold := st.width * (1 / 2)
      if threshold ≤ revealed then
        ({ st with startX := none, activePointerId := none,
                   committing := true, dx := -st.width }, true)
      else
        ({ st with startX := none, activePointerId := none,
                   committing := false, dx := 0 }, false)

/-! ### Helper lemmas -/

/-- Insertion sort establishes the store ordering invariant. -/
theorem sortTx_sorted (l : List Transaction) : SortedTx (sortTx l) :=
  List.sorted_insertionSort byDateDesc l

/-- Sorting an already-sorted collection leaves it unchanged. -/
theorem sortTx_eq_of_sorted {l : List Transaction} (h : SortedTx l) : sortTx l = l :=
  List.Sorted.insertionSort_eq h

/-- A date-preserving rewrite of every record preserves the invariant. -/
theorem sortedTx_map {l : List Transaction} {f : Transaction → Transaction}
    (hf : ∀ t ∈ l, dateVal (f t).date = dateVal t.date) (hs : SortedTx l) :
    SortedTx (l.map f) := by
  rw [SortedTx, List.Sorted, List.pairwise_map]
  refine hs.imp_of_mem ?_
  intro a b ha hb hr
  show dateVal (f b).date ≤ dateVal (f a).date
  rw [hf a ha, hf b hb]
  exact hr

/-- Filtering preserves the invariant. -/
theorem sortedTx_filter {l : List Transaction} (p : Transaction → Bool)
    (hs : SortedTx l) : SortedTx (l.filter p) :=
  List.Pairwise.sublist (List.filter_sublist (p := p) l) hs

/-- Key strings of the freshly-identified records are exactly the key
strings of the surviving candidates: `mkTx` copies name, date and amount. -/
theorem keysOf_withIdsFrom (mkId : Nat → String) (nowISO : String) :
    ∀ (i : Nat) (u : List NewTx),
      keysOf (withIdsFrom mkId nowISO i u) =
        u.map fun nt => txKeyOf nt.name nt.date nt.amount
  | _, [] => rfl
  | i, _ :: rest => by
    simp only [withIdsFrom, keysOf, List.map_cons]
    exact congrArg _ (keysOf_withIdsFrom mkId nowISO (i + 1) rest)

/-- Membership in the key strings is invariant under the re-sort. -/
theorem mem_keysOf_sortTx {k : String} {l : List Transaction} :
    k ∈ keysOf (sortTx l) ↔ k ∈ keysOf l :=
  ((List.perm_insertionSort byDateDesc l).map _).mem_iff

/-- Key strings of an appended collection. -/
theorem keysOf_append (a b : List Transaction) :
    keysOf (a ++ b) = keysOf a ++ keysOf b :=
  List.map_append _ a b

/-! ### Concrete fixtures for counterexamples and witnesses -/

/-- A deterministic id generator for concrete scenarios. -/
def mkIdC : Nat → String := fun n => "id" ++ toString n

/-- A fixed operation timestamp for concrete scenarios. -/
def nowC : String := "2024-06-01T00:00:00.000Z"

def tA : Transaction := ⟨"a", "A", "其他", 1, "2024-01-02T00:00", none, nowC⟩

def tB : Transaction := ⟨"b", "B", "其他", 1, "2024-01-01T00:00", none, nowC⟩

/-- The record `tA` edited to an earlier date (same id). -/
def tA2 : Transaction := ⟨"a", "A", "其他", 1, "2023-12-31T00:00", none, nowC⟩

/-- A store holding `tA`, `tB`, sorted by date descending. -/
def sAB : AppState := ⟨[tA, tB], []⟩

/-! ### C1 — store ordering invariant -/

/-- C1 (amended): starting from a store sorted by date descending, every
mutation preserves the order — the batch add, import, restore and the
create branch of save re-sort, and delete, bulk-delete and bulk-category
rewrite or remove records without touching dates — EXCEPT the in-place
edit branch of `handleSaveTransaction`, which does not re-sort and hence
is covered only under the side condition that the saved record's date
value equals that of the record it replaces. -/
theorem C1_sorted_after_mutation (m : Mutation) (s : AppState)
    (hs : SortedTx s.transactions) (hm : editKeepsDate m s) :
    SortedTx (applyMutation m s).transactions := by
  cases m with
  | addBatch mkId nowISO batch =>
    by_cases h : (addUnique batch s).isEmpty
    · simpa [applyMutation, handleAddTransactionsFull, h] using hs
    · simpa [applyMutation, handleAddTransactionsFull, h] using sortTx_sorted _
  | saveEdit tx =>
    show SortedTx (s.transactions.map _)
    refine sortedTx_map ?_ hs
    intro t ht
    by_cases hid : t.id = tx.id
    · simp only [hid, beq_self_eq_true, if_true]
      exact (hm t ht hid).symm
    · simp [beq_eq_false_iff_ne.2 hid]
  | saveNew nt id nowISO =>
    exact sortTx_sorted _
  | bulkCategory ids c =>
    by_cases h : ids.isEmpty
    · simpa [applyMutation, handleBulkChangeCategory, h] using hs
    · simp only [applyMutation, handleBulkChangeCategory, h]
      rw [if_neg (by simp [h])]
      refine sortedTx_map ?_ hs
      intro t _
      by_cases hid : t.id ∈ ids <;> simp [hid]
  | del id deletedAt =>
    simp only [applyMutation, handleDeleteTransaction]
    split <;> exact sortedTx_filter _ hs
  | bulkDel ids deletedAt =>
    by_cases h : ids.isEmpty
    · simpa [applyMutation, handleBulkDeleteTransactions, h] using hs
    · simp only [applyMutation, handleBulkDeleteTransactions, h]
      rw [if_neg (by simp [h])]
      exact sortedTx_filter _ hs
  | importBatch mkId nowISO items =>
    by_cases h : (importUnique items s).isEmpty
    · simpa [applyMutation, handleImportTransactions, h] using hs
    · simpa [applyMutation, handleImportTransactions, h] using sortTx_sorted _
  | restore tx =>
    exact sortTx_sorted _
  | clearAll =>
    exact List.sorted_nil

/-- C1 counterexample: the claim as stated fails — from the sorted store
`[tA, tB]`, saving `tA` with its date moved before `tB`'s (the edit branch
of `handleSaveTransaction`, which does not re-sort) leaves the collection
NOT sorted by date descending. -/
theorem C1_counterexample :
    SortedTx sAB.transactions ∧
    applyMutation (.saveEdit tA2) sAB = ⟨[tA2, tB], []⟩ ∧
    ¬ SortedTx [tA2, tB] :=
  ⟨by decide, by decide, by decide⟩

/-- C1 witness: the amended preservation theorem applied to a concrete
batch add on the concrete sorted store. -/
theorem C1_witness :
    SortedTx (applyMutation
      (.addBatch mkIdC nowC [⟨"C", "其他", 2, "2024-03-01T00:00", none⟩]) sAB).transactions :=
  C1_sorted_after_mutation _ sAB (by decide) trivial

/-! ### C2 — dedup decision -/

/-- A stored record whose name contains the separator character. -/
def tPipe : Transaction := ⟨"t0", "a|b", "其他", 1, "c", none, nowC⟩

/-- A store holding only `tPipe`. -/
def sPipe : AppState := ⟨[tPipe], []⟩

/-- A candidate with a triple distinct from `tPipe`'s, whose joined key
nevertheless collides with `tPipe`'s. -/
def cPipe : NewTx := ⟨"a", "其他", 1, "b|c", none⟩

/-- C2 (amended): a candidate is dropped by `handleAddTransactions` if and
only if its JOINED key string (name, date and amount concatenated with the
separator) equals the joined key string of some stored record.  Exact
equality of the (name, date, amount) triple always implies the collision,
so genuine duplicates are always dropped — but the converse direction of
the claim fails: two distinct triples can produce the same joined key when
a field contains the separator character. -/
theorem C2_dedup_by_key (mkId : Nat → String) (nowISO : String)
    (s : AppState) (nt : NewTx) :
    ((handleAddTransactionsFull mkId nowISO [nt] s).2 = [] ↔
      txKeyOf nt.name nt.date nt.amount ∈ keysOf s.transactions)
    ∧ ((∃ t ∈ s.transactions,
          t.name = nt.name ∧ t.date = nt.date ∧ t.amount = nt.amount) →
        (handleAddTransactionsFull mkId nowISO [nt] s).2 = []) := by
  by_cases hk : txKeyOf nt.name nt.date nt.amount ∈ keysOf s.transactions
  · have hu : addUnique [nt] s = [] := by simp [addUnique, hk]
    exact ⟨by simp [handleAddTransactionsFull, hu, hk],
           fun _ => by simp [handleAddTransactionsFull, hu]⟩
  · have hu : addUnique [nt] s = [nt] := by simp [addUnique, hk]
    constructor
    · simp [handleAddTransactionsFull, hu, withIdsFrom, hk]
    · rintro ⟨t, ht, hn, hd, ha⟩
      refine absurd ?_ hk
      have h1 : txKeyOf nt.name nt.date nt.amount = txKeyOf t.name t.date t.amount := by
        rw [hn, hd, ha]
      rw [h1]
      exact List.mem_map_of_mem _ ht

/-- C2 counterexample: the claim as stated fails — the candidate `cPipe`
is dropped (nothing is added) although no stored record has its exact
(name, date, amount) triple: `tPipe`'s name contains the separator, and
the joined keys coincide. -/
theorem C2_counterexample :
    sPipe.transactions = [tPipe] ∧
    ¬ (tPipe.name = cPipe.name ∧ tPipe.date = cPipe.date ∧ tPipe.amount = cPipe.amount) ∧
    handleAddTransactionsFull mkIdC nowC [cPipe] sPipe = (sPipe, []) :=
  ⟨rfl, by decide, by decide⟩

/-- C2 witness: the amended theorem applied to a concrete exact duplicate,
which is indeed dropped. -/
theorem C2_witness :
    (handleAddTransactionsFull mkIdC nowC
      [⟨"A", "其他", 1, "2024-01-02T00:00", none⟩] sAB).2 = [] :=
  (C2_dedup_by_key mkIdC nowC sAB ⟨"A", "其他", 1, "2024-01-02T00:00", none⟩).2
    ⟨tA, by decide, by decide, by decide, by decide⟩

/-! ### C3 — import idempotence -/

/-- C3: importing the same batch twice (whatever ids and timestamp the
second run draws) yields the same store state as importing it once — after
the first import every normalized candidate's key is present in the store,
so the second run's dedup filter drops everything and the handler returns
the state unchanged. -/
theorem C3_import_idempotent (mkId mkId2 : Nat → String) (now now2 : String)
    (items : List ImportItem) (s : AppState) :
    handleImportTransactions mkId2 now2 items (handleImportTransactions mkId now items s)
      = handleImportTransactions mkId now items s := by
  by_cases h : (importUnique items s).isEmpty
  · have h1 : handleImportTransactions mkId now items s = s := by
      simp [handleImportTransactions, h]
    rw [h1]
    simp [handleImportTransactions, h]
  · have htx : (handleImportTransactions mkId now items s).transactions
        = sortTx (withIdsFrom mkId now 0 (importUnique items s) ++ s.transactions) := by
      simp [handleImportTransactions, h]
    have h2 : importUnique items (handleImportTransactions mkId now items s) = [] := by
      rw [importUnique, List.filter_eq_nil_iff]
      intro n hn
      simp only [Bool.not_eq_true', decide_eq_false_iff_not, not_not, htx]
      refine mem_keysOf_sortTx.2 ?_
      rw [keysOf_append]
      by_cases hk : txKeyOf n.name n.date n.amount ∈ keysOf s.transactions
      · exact List.mem_append_right _ hk
      · refine List.mem_append_left _ ?_
        rw [keysOf_withIdsFrom]
        refine List.mem_map_of_mem _ ?_
        rw [importUnique, List.mem_filter]
        exact ⟨hn, by simp [hk]⟩
    set s1 := handleImportTransactions mkId now items s
    simp [handleImportTransactions, h2]

/-! ### C4 — import-path category handling -/

/-- An import candidate with valid name, date and amount but a category
outside the enumeration. -/
def cBadCat : ImportItem := ⟨"x", "2024-01-01T00:00", some 5, "不是分类", none⟩

/-- The empty store. -/
def emptyState : AppState := ⟨[], []⟩

/-- C4 (amended): the import path performs NO category validation:
every candidate whose trimmed name is non-empty, whose sliced date is
non-empty and whose amount is a finite number with positive absolute
value is normalized, and its category field — valid or not — is carried
through verbatim (neither rejected nor defaulted). -/
theorem C4_import_keeps_category (it : ImportItem) (q : ℚ)
    (hamt : it.amount = some q) (hq : 0 < |q|)
    (hname : jsTrim it.name ≠ "") (hdate : jsSlice16 it.date ≠ "") :
    normalizeItem it =
      some ⟨jsTrim it.name, it.category, |q|, jsSlice16 it.date, normLoc it.location⟩ := by
  simp only [normalizeItem, hamt]
  rw [if_neg]
  push_neg
  exact ⟨hname, hdate, hq⟩

/-- C4 counterexample: the claim as stated fails — a candidate whose
category is not in the enumeration is merged into the store anyway, with
the invalid category stored unchanged. -/
theorem C4_counterexample :
    decide ("不是分类" ∈ CATEGORIES) = false ∧
    (handleImportTransactions mkIdC nowC [cBadCat] emptyState).transactions.map
      (fun t => t.category) = ["不是分类"] :=
  ⟨by decide, by decide⟩

/-- C4 witness: the amended theorem applied to the concrete
invalid-category candidate. -/
theorem C4_witness :
    normalizeItem cBadCat =
      some ⟨jsTrim cBadCat.name, cBadCat.category, |(5 : ℚ)|,
            jsSlice16 cBadCat.date, normLoc cBadCat.location⟩ :=
  C4_import_keeps_category cBadCat 5 rfl (by norm_num) (by decide) (by decide)

/-! ### C5 — the Education category -/

/-- An AI-extraction candidate with category Education (教育), valid name,
date and amount, and a merchant name on which no heuristic family fires. -/
def eduItem : AIItem := ⟨"学费", "2024-01-01T00:00", some 100, "教育", none⟩

/-- C5: the `Category` enum does contain Education, but `CATEGORIES`
(src/constants.ts), the list `analyzeBill` validates against, omits it —
so an Education candidate that fires no heuristic override is REJECTED by
validation, and a batch consisting of it alone fails with the batch-empty
error instead of being stored. -/
theorem C5_education_rejected :
    catStr Category.Education = "教育" ∧
    applyOverride eduItem.name eduItem.category = "教育" ∧
    decide ("教育" ∈ CATEGORIES) = false ∧
    validateAI eduItem = none ∧
    analyzeBillValidate [eduItem] = Except.error noValidMsg :=
  ⟨rfl, by decide, by decide, rfl, rfl⟩

/-! ### C6 — behavior when every candidate is dropped -/

/-- An import candidate that fails validation (empty name). -/
def cNoName : ImportItem := ⟨"", "2024-01-01T00:00", some 5, "其他", none⟩

/-- C6 (amended): when the input batch is non-empty and every candidate is
dropped, the AI-extraction path fails with the single batch-empty error —
but the JSON-import path does NOT: `handleImportTransactions` silently
returns with the store unchanged (its embedding has no error outcome,
mirroring the source's bare `return`). -/
theorem C6_all_dropped (data : List AIItem) (items : List ImportItem)
    (mkId : Nat → String) (nowISO : String) (s : AppState)
    (hdata : data ≠ []) (hvalid : data.filterMap validateAI = [])
    (_hitems : items ≠ []) (hunique : importUnique items s = []) :
    analyzeBillValidate data = Except.error noValidMsg ∧
    handleImportTransactions mkId nowISO items s = s := by
  constructor
  · simp [analyzeBillValidate, hvalid, hdata]
  · simp [handleImportTransactions, hunique]

/-- C6 counterexample: the claim as stated fails on the import path — a
non-empty batch whose single candidate is invalid leaves the store
unchanged with no error raised (the handler returns normally). -/
theorem C6_counterexample :
    ([cNoName] : List ImportItem) ≠ [] ∧
    importUnique [cNoName] sPipe = [] ∧
    handleImportTransactions mkIdC nowC [cNoName] sPipe = sPipe :=
  ⟨by decide, by decide, by decide⟩

/-- C6 witness: the amended theorem applied to a concrete all-invalid AI
batch and a concrete all-invalid import batch. -/
theorem C6_witness :
    analyzeBillValidate [(⟨"", "", none, "", none⟩ : AIItem)] = Except.error noValidMsg ∧
    handleImportTransactions mkIdC nowC [cNoName] sPipe = sPipe :=
  C6_all_dropped _ _ mkIdC nowC sPipe (by decide) rfl (by decide) (by decide)

/-! ### C7 — pharmacy precedence -/

/-- C7: for every merchant name matching a pharmacy pattern and also a
convenience-store, supermarket or department-store pattern, the override
cascade yields Medical — the pharmacy branch is tested first, so it wins
over every other matcher family regardless of the supplied category. -/
theorem C7_pharmacy_precedence (name category : String)
    (hph : isPharmacy name = true)
    (_hsm : isConvenienceStore name = true ∨ isSupermarket name = true ∨
           isDepartmentStore name = true) :
    applyOverride name category = catStr Category.Medical := by
  rw [applyOverride, if_pos hph]

/-- C7 witness: a concrete name containing both a pharmacy literal and a
supermarket literal is overridden to Medical. -/
theorem C7_witness :
    applyOverride "药店超市" "其他" = catStr Category.Medical :=
  C7_pharmacy_precedence "药店超市" "其他" (by decide) (Or.inr (Or.inl (by decide)))

/-! ### C8 — expression evaluation -/

/-- Flushing always leaves an empty pending segment. -/
theorem flushSt_current (st : ScanSt) : (flushSt st).current = [] := by
  unfold flushSt
  split <;> rfl

/-- Flushing a state with no pending segment changes nothing. -/
theorem flushSt_of_empty {st : ScanSt} (h : st.current = []) : flushSt st = st := by
  obtain ⟨t, c, sg⟩ := st
  subst h
  simp [flushSt]

/-- C8: the evaluator maps "12+3.5-1" to 14.5 and "5--3" to 2; a trailing
operator contributes nothing to the signed sum (the scan of any normalized
sequence extended by an operator equals the scan of the sequence); and in
a run of consecutive operators only the last one is kept by the
normalization pass. -/
theorem C8_eval_expression (cs : List Char) (op a b : Char) (rest : List Char)
    (hop : isOpChar op = true) (ha : isOpChar a = true) (hb : isOpChar b = true) :
    evalExpression "12+3.5-1" = 29 / 2 ∧
    evalExpression "5--3" = 2 ∧
    scanChars (cs ++ [op]) = scanChars cs ∧
    collapseOps (a :: b :: rest) = collapseOps (b :: rest) := by
  refine ⟨?_, ?_, ?_, ?_⟩
  · simp +decide [evalExpression, scanChars, collapseOps, scanStep, flushSt, parseSeg,
      digitsVal, fracVal, isExprChar, isOpChar]
    norm_num
  · simp +decide [evalExpression, scanChars, collapseOps, scanStep, flushSt, parseSeg,
      digitsVal, fracVal, isExprChar, isOpChar]
    norm_num
  · rw [scanChars, scanChars, List.foldl_append, List.foldl_cons, List.foldl_nil]
    generalize List.foldl scanStep ({ total := 0, current := [], sign := 1 } : ScanSt) cs = st
    have hone : scanStep st op = { flushSt st with sign := if op == '+' then 1 else -1 } := by
      simp [scanStep, hop]
    have htwo : flushSt { flushSt st with sign := if op == '+' then 1 else -1 }
        = { flushSt st with sign := if op == '+' then 1 else -1 } :=
      flushSt_of_empty (flushSt_current st)
    rw [hone, htwo]
  · simp [collapseOps, ha, hb]

/-- C8 witness: the evaluator theorem applied to concrete operator runs. -/
theorem C8_witness :
    evalExpression "12+3.5-1" = 29 / 2 ∧
    evalExpression "5--3" = 2 ∧
    scanChars (['5'] ++ ['+']) = scanChars ['5'] ∧
    collapseOps ('+' :: '-' :: ['3']) = collapseOps ('-' :: ['3']) :=
  C8_eval_expression ['5'] '+' '+' '-' ['3'] (by decide) (by decide) (by decide)

/-! ### C9 — swipe commit threshold -/

/-- C9: on pointer-up of the tracked touch/pen pointer, the deletion
callback is scheduled IF AND ONLY IF the revealed distance is at least
half the container width; at the boundary (exactly half) the gesture
commits (offset slides to minus the width, committing set), and strictly
below it the offset snaps back to 0 with no deletion. -/
theorem C9_swipe_threshold (e : PtrEvent) (st : SwipeSt) (start : ℚ)
    (htype : e.ptype = PtrType.touch ∨ e.ptype = PtrType.pen)
    (hid : st.activePointerId = some e.pid)
    (hstart : st.startX = some start) :
    ((onPointerUp e st).2 = true ↔
      st.width * (1 / 2) ≤ |st.baseX + (e.clientX - start)|) ∧
    (st.width * (1 / 2) ≤ |st.baseX + (e.clientX - start)| →
      (onPointerUp e st).1.committing = true ∧ (onPointerUp e st).1.dx = -st.width) ∧
    (|st.baseX + (e.clientX - start)| < st.width * (1 / 2) →
      (onPointerUp e st).1.committing = false ∧ (onPointerUp e st).1.dx = 0) := by
  have h1 : (e.ptype != PtrType.touch && e.ptype != PtrType.pen) = false := by
    rcases htype with h | h <;> rw [h] <;> rfl
  have h2 : (st.activePointerId != some e.pid) = false := by
    rw [hid]; simp
  have hup : onPointerUp e st =
      if st.width * (1 / 2) ≤ |st.baseX + (e.clientX - start)| then
        ({ st with startX := none, activePointerId := none,
                   committing := true, dx := -st.width }, true)
      else
        ({ st with startX := none, activePointerId := none,
                   committing := false, dx := 0 }, false) := by
    simp only [onPointerUp, h1, h2, hstart, Bool.false_eq_true, if_false]
  rw [hup]
  by_cases hthr : st.width * (1 / 2) ≤ |st.baseX + (e.clientX - start)|
  · rw [if_pos hthr]
    exact ⟨iff_of_true rfl hthr, fun _ => ⟨rfl, rfl⟩,
           fun hlt => absurd hthr (not_le.2 hlt)⟩
  · rw [if_neg hthr]
    exact ⟨iff_of_false Bool.false_ne_true hthr, fun hle => absurd hle hthr,
           fun _ => ⟨rfl, rfl⟩⟩

/-- C9 witness: with container width 100, releasing at a revealed distance
of exactly 50 schedules the deletion, and releasing at 49 snaps the offset
back to 0. -/
theorem C9_witness :
    (onPointerUp ⟨PtrType.touch, 1, -50⟩ ⟨some 0, 0, 0, false, some 1, 100⟩).2 = true ∧
    (onPointerUp ⟨PtrType.touch, 1, -49⟩ ⟨some 0, 0, 0, false, some 1, 100⟩).1.dx = 0 ∧
    (onPointerUp ⟨PtrType.touch, 1, -49⟩ ⟨some 0, 0, 0, false, some 1, 100⟩).2 = false := by
  refine ⟨?_, ?_, ?_⟩
  · exact (C9_swipe_threshold ⟨PtrType.touch, 1, -50⟩ ⟨some 0, 0, 0, false, some 1, 100⟩ 0
      (Or.inl rfl) rfl rfl).1.2 (by norm_num)
  · exact ((C9_swipe_threshold ⟨PtrType.touch, 1, -49⟩ ⟨some 0, 0, 0, false, some 1, 100⟩ 0
      (Or.inl rfl) rfl rfl).2.2 (by norm_num)).2
  · have h := (C9_swipe_threshold ⟨PtrType.touch, 1, -49⟩ ⟨some 0, 0, 0, false, some 1, 100⟩ 0
      (Or.inl rfl) rfl rfl).1
    rw [← Bool.not_eq_true]
    intro hc
    exact absurd (h.1 hc) (by norm_num)

/-! ### C10 — restore with a colliding triple -/

/-- A trash record whose (name, date, amount) triple matches `tA` but
whose id is fresh. -/
def tR : Transaction := ⟨"r", "A", "其他", 1, "2024-01-02T00:00", none, nowC⟩

/-- A store holding `tA`, `tB` and a trash entry for `tR`. -/
def sTrash : AppState := ⟨[tA, tB], [⟨tR, nowC⟩]⟩

/-- C10: restoring a trash record whose (name, date, amount) triple
collides with a stored record leaves the (sorted) transaction collection
unchanged, while the trash entry carrying the restored id is removed
unconditionally — only the trash field changes on a skipped restore. -/
theorem C10_restore_skip (tx : Transaction) (s : AppState) (t : Transaction)
    (hs : SortedTx s.transactions) (ht : t ∈ s.transactions)
    (hn : t.name = tx.name) (hd : t.date = tx.date) (ha : t.amount = tx.amount) :
    (handleRestoreTransaction tx s).transactions = s.transactions ∧
    (handleRestoreTransaction tx s).trash =
      s.trash.filter (fun it => it.tx.id != tx.id) := by
  have hcol : (s.transactions.any fun u =>
      u.name == tx.name && u.date == tx.date && decide (u.amount = tx.amount)) = true :=
    List.any_eq_true.2 ⟨t, ht, by simp [hn, hd, ha]⟩
  constructor
  · simp only [handleRestoreTransaction, hcol, if_true]
    exact sortTx_eq_of_sorted hs
  · rfl

/-- C10 witness: the restore-skip theorem applied to the concrete trash
record `tR` colliding with the stored `tA`. -/
theorem C10_witness :
    (handleRestoreTransaction tR sTrash).transactions = sTrash.transactions ∧
    (handleRestoreTransaction tR sTrash).trash =
      sTrash.trash.filter (fun it => it.tx.id != tR.id) :=
  C10_restore_skip tR sTrash tA (by decide) (by decide) (by decide) (by decide) (by decide)

end BillRecorder
